import Mathlib

/-!
# Vigil worker — formal verification of the specification against the code

A shallow embedding of the pure/decidable core of the `vigil` worker
(`apps/worker/vigil/*.py`) together with theorems settling the frozen claims
C1–C10.  Each Python function that a claim depends on is translated into an
executable Lean definition; stateful code (backoff maps, the SC circuit
breaker, HTTP retry loops, notification retry counters) is modelled as
explicit state passing.  Machine-level concerns (actual sockets, SMTP, OCR
images) are abstracted into outcome parameters; the logic that routes those
outcomes is translated faithfully from the source.
-/

namespace Vigil

/-! ## Python string primitives

The worker manipulates Python `str` values; we model them as Lean `String`s
(lists of characters).  `isPySpace` covers the six ASCII whitespace
characters recognised by `str.strip()` / `str.split()` / `\s` for the ASCII
inputs this system handles. -/

def isPySpace (c : Char) : Bool :=
  c == ' ' || c == '\t' || c == '\n' || c == '\r' || c == '\x0b' || c == '\x0c'

/-- Python `str.strip()` on the underlying character list. -/
def stripChars (l : List Char) : List Char :=
  ((l.dropWhile isPySpace).reverse.dropWhile isPySpace).reverse

/-- Python `str.strip()`. -/
def pyStrip (s : String) : String := ⟨stripChars s.data⟩

/-- Python `str.lower()` (ASCII). -/
def pyLower (s : String) : String := ⟨s.data.map Char.toLower⟩

/-- Auxiliary for `pySplitWs`: accumulates the current word (reversed) and
the words seen so far (reversed). -/
def wsSplitAux : List Char → List Char → List String → List String
  | [], cur, acc => if cur.isEmpty then acc else (⟨cur.reverse⟩ : String) :: acc
  | c :: cs, cur, acc =>
    if isPySpace c then
      wsSplitAux cs [] (if cur.isEmpty then acc else (⟨cur.reverse⟩ : String) :: acc)
    else
      wsSplitAux cs (c :: cur) acc

/-- Python `str.split()` with no argument: split on whitespace runs,
discarding empty pieces. -/
def pySplitWs (s : String) : List String := (wsSplitAux s.data [] []).reverse

/-- Auxiliary for `pySplitChar`. -/
def splitOnCharAux (sep : Char) : List Char → List Char → List String
  | [], cur => [(⟨cur.reverse⟩ : String)]
  | c :: cs, cur =>
    if c = sep then (⟨cur.reverse⟩ : String) :: splitOnCharAux sep cs []
    else splitOnCharAux sep cs (c :: cur)

/-- Python `str.split(sep)` for a single-character separator: split on every
occurrence, keeping empty pieces. -/
def pySplitChar (s : String) (sep : Char) : List String := splitOnCharAux sep s.data []

/-! ## `query_builder.py` -/

/-- A `datetime.date`. -/
structure PyDate where
  year : Nat
  month : Nat
  day : Nat
deriving DecidableEq

/-- Zero-pad a numeral to two digits, as `strftime` does for `%d`/`%m`. -/
def pad2 (n : Nat) : String := if n < 10 then "0" ++ toString n else toString n

/-- Python `date.strftime("%d-%m-%Y")`. -/
def strftimeDMY (d : PyDate) : String :=
  pad2 d.day ++ "-" ++ pad2 d.month ++ "-" ++ toString d.year

/-- `build_query` from `query_builder.py`.  The `ValueError` raised on an
unknown `watch_type` is modelled as `Except.error`. -/
def build_query (watch_type query_terms : String) (court_filter : List String)
    (from_date : PyDate) (to_date : Option PyDate := none) : Except String String :=
  if watch_type ≠ "entity" ∧ watch_type ≠ "topic" ∧ watch_type ≠ "act" then
    Except.error ("Unknown watch_type: " ++ watch_type)
  else
    let terms_part :=
      if watch_type = "entity" ∨ watch_type = "act" then
        "\"" ++ pyStrip query_terms ++ "\""
      else
        let stripped := pyStrip query_terms
        if stripped.data.contains ',' then
          let raw := ((pySplitChar stripped ',').map pyStrip).filter (· ≠ "")
          String.intercalate " ANDD "
            (raw.map (fun t => if t.data.contains ' ' then "\"" ++ t ++ "\"" else t))
        else
          let words := pySplitWs stripped
          if words.length ≤ 2 then
            if words.length > 1 then "\"" ++ stripped ++ "\"" else stripped
          else
            String.intercalate " ANDD " words
    let parts := [terms_part]
      ++ (if court_filter ≠ [] then ["doctypes:" ++ String.intercalate "," court_filter] else [])
      ++ ["fromdate:" ++ strftimeDMY from_date]
      ++ (match to_date with
          | some td => ["todate:" ++ strftimeDMY td]
          | none => [])
    Except.ok (String.intercalate " " parts)

/-! ### Spec-side query construction (§4.3 of the spec)

`specBuildQuery` transcribes the spec's bullet rules word for word: the
entity/act branch wraps "the *entire* `query_terms` string" in double quotes
(no trimming), and a comma-separated topic piece is quoted iff it "contains
internal whitespace" (any whitespace character).  `specBuildQueryAmended`
differs in exactly the two places the code diverges from those words: the
entity/act term is stripped of surrounding whitespace before quoting
(`f'"{query_terms.strip()}"'`), and the piece-quoting test is "contains a
space character" (`" " in t`). -/

/-- One comma-separated topic piece, per the spec's words: "each piece becomes
a quoted phrase if it contains internal whitespace, otherwise a bare word". -/
def specTopicPiece (t : String) : String :=
  if t.data.any isPySpace then "\"" ++ t ++ "\"" else t

/-- One comma-separated topic piece under the amended rule: quoted iff it
contains a space character. -/
def amendedTopicPiece (t : String) : String :=
  if t.data.contains ' ' then "\"" ++ t ++ "\"" else t

/-- The entity/act terms segment per the spec's words: "the entire
`query_terms` string is wrapped in double quotes". -/
def specEntityTerm (t : String) : String := "\"" ++ t ++ "\""

/-- The entity/act terms segment under the amended rule: the term is stripped
of surrounding whitespace before quoting, as the code does. -/
def amendedEntityTerm (t : String) : String := "\"" ++ pyStrip t ++ "\""

/-- The terms segment of a query, parameterised by the entity/act wrapping
rule and the comma-piece quoting rule. -/
def specTermsPart (entityRule pieceRule : String → String)
    (watch_type query_terms : String) : String :=
  if watch_type = "entity" ∨ watch_type = "act" then
    entityRule query_terms
  else
    let stripped := pyStrip query_terms
    if stripped.data.contains ',' then
      String.intercalate " ANDD "
        ((((pySplitChar stripped ',').map pyStrip).filter (· ≠ "")).map pieceRule)
    else
      let words := pySplitWs stripped
      if words.length ≤ 2 then
        if words.length > 1 then "\"" ++ stripped ++ "\"" else stripped
      else
        String.intercalate " ANDD " words

/-- Query construction as the spec's §4.3 words it, with segments assembled
in the order terms, doctypes, fromdate, todate. -/
def specBuildQueryWith (entityRule pieceRule : String → String) (watch_type query_terms : String)
    (court_filter : List String) (from_date : PyDate) (to_date : Option PyDate) :
    Except String String :=
  if watch_type = "entity" ∨ watch_type = "topic" ∨ watch_type = "act" then
    Except.ok (String.intercalate " "
      ([specTermsPart entityRule pieceRule watch_type query_terms]
        ++ (if court_filter ≠ [] then ["doctypes:" ++ String.intercalate "," court_filter] else [])
        ++ ["fromdate:" ++ strftimeDMY from_date]
        ++ (to_date.map (fun td => "todate:" ++ strftimeDMY td)).toList))
  else
    Except.error ("Unknown watch_type: " ++ watch_type)

/-- The spec's rules, read literally: the whole entity/act string quoted,
"internal whitespace" for comma pieces. -/
def specBuildQuery (watch_type query_terms : String) (court_filter : List String)
    (from_date : PyDate) (to_date : Option PyDate) : Except String String :=
  specBuildQueryWith specEntityTerm specTopicPiece
    watch_type query_terms court_filter from_date to_date

/-- The spec's rules with the two amendments the code forces: entity/act terms
stripped before quoting, and "contains a space" for comma pieces. -/
def specBuildQueryAmended (watch_type query_terms : String) (court_filter : List String)
    (from_date : PyDate) (to_date : Option PyDate) : Except String String :=
  specBuildQueryWith amendedEntityTerm amendedTopicPiece
    watch_type query_terms court_filter from_date to_date

/-! ## `ik_client.py` — `IKClient._request`

One HTTP attempt either yields a response with a status code (and, for the
success path, whether the body parses as JSON) or times out.  The retry loop
of `_request` is modelled over a `script` assigning each 0-indexed attempt
its outcome; the `asyncio.sleep` calls are collected in order. -/

inductive HttpOutcome where
  | status : Nat → Bool → HttpOutcome
  | timeout : HttpOutcome
deriving DecidableEq

/-- The terminal outcome of `_request`: which exception is raised, or a
successful return. -/
inductive ReqResult where
  | authError : ReqResult
  | rateLimitError : ReqResult
  | clientError : Nat → ReqResult
  | malformedJson : ReqResult
  | ok : ReqResult
  | timeoutError : ReqResult
  | apiError : ReqResult
deriving DecidableEq

def isTimeoutOutcome : HttpOutcome → Bool
  | .timeout => true
  | .status _ _ => false

/-- The body of `for attempt in range(1 + max_retries)` in
`IKClient._request`, with `fuel = 1 + max_retries - attempt` and the
`last_exc`-was-a-timeout flag passed explicitly.  Sleeps of
`2 ** (attempt + 1)` seconds are recorded whenever another attempt remains. -/
def ikRequestAux (script : Nat → HttpOutcome) (maxRetries : Nat) :
    Nat → Nat → Bool → List Nat → ReqResult × List Nat
  | 0, _, lastTimeout, sleeps =>
    ((if lastTimeout then ReqResult.timeoutError else ReqResult.apiError), sleeps)
  | fuel + 1, attempt, _, sleeps =>
    match script attempt with
    | .timeout =>
      ikRequestAux script maxRetries fuel (attempt + 1) true
        (if attempt < maxRetries then sleeps ++ [2 ^ (attempt + 1)] else sleeps)
    | .status c jsonOk =>
      if c = 403 then (ReqResult.authError, sleeps)
      else if c = 429 then (ReqResult.rateLimitError, sleeps)
      else if 400 ≤ c ∧ c < 500 then (ReqResult.clientError c, sleeps)
      else if 500 ≤ c then
        ikRequestAux script maxRetries fuel (attempt + 1) false
          (if attempt < maxRetries then sleeps ++ [2 ^ (attempt + 1)] else sleeps)
      else if jsonOk then (ReqResult.ok, sleeps)
      else (ReqResult.malformedJson, sleeps)

/-- `IKClient._request` for a given outcome script: final result plus the
sequence of backoff sleeps, in seconds. -/
def ikRequest (script : Nat → HttpOutcome) (maxRetries : Nat) : ReqResult × List Nat :=
  ikRequestAux script maxRetries (maxRetries + 1) 0 false []

/-- An attempt outcome the code retries: a timeout or a 5xx status. -/
def retryable (o : HttpOutcome) : Prop :=
  o = HttpOutcome.timeout ∨ ∃ c j, o = HttpOutcome.status c j ∧ 500 ≤ c

/-- The sleeps accumulated after `k` retried attempts: 2, 4, 8, … -/
def backoffSleeps (k : Nat) : List Nat := (List.range k).map (fun i => 2 ^ (i + 1))

/-- The timeout flag carried into attempt `k`. -/
def lastFlagB (script : Nat → HttpOutcome) : Nat → Bool
  | 0 => false
  | k + 1 => isTimeoutOutcome (script k)

/-! ## `polling.py` — due-watch selection, per-watch backoff, circuit breaker

`_watch_backoffs` is modelled as an association list from watch id to the
(absolute) time the backoff expires; time is an integer number of minutes.
`poll_single_watch`'s interaction with the search client is modelled by
passing the outcome of `client.search` explicitly. -/

/-- The fields of a watch row that the polling engine reads.  Absent dict
keys are `none`; `watch.get(key, default)` becomes `Option.getD`. -/
structure Watch where
  id : String
  watch_type : String := "entity"
  query_terms : String := ""
  last_polled_at : Option Int := none
  polling_interval_minutes : Option Nat := none

/-- `watch.get("polling_interval_minutes", 30)`. -/
def intervalOf (w : Watch) : Nat := w.polling_interval_minutes.getD 30

/-- The in-memory `_watch_backoffs` dict. -/
abbrev Backoffs := List (String × Int)

def lookupBackoff (b : Backoffs) (id : String) : Option Int :=
  (b.find? (fun p => p.1 == id)).map (·.2)

def eraseBackoff (b : Backoffs) (id : String) : Backoffs :=
  b.filter (fun p => !(p.1 == id))

def setBackoff (b : Backoffs) (id : String) (t : Int) : Backoffs :=
  (id, t) :: eraseBackoff b id

/-- The interval test of `_is_due`: never polled → due; else due iff
`now - last_polled_at >= polling_interval_minutes`. -/
def dueByInterval (w : Watch) (now : Int) : Bool :=
  match w.last_polled_at with
  | none => true
  | some lp => (intervalOf w : Int) ≤ now - lp

/-- `_is_due` from `polling.py`: returns the decision together with the
(possibly lazily-cleared) backoff map. -/
def _is_due (b : Backoffs) (now : Int) (w : Watch) : Bool × Backoffs :=
  match lookupBackoff b w.id with
  | some expiry =>
    if now < expiry then (false, b)
    else (dueByInterval w now, eraseBackoff b w.id)
  | none => (dueByInterval w now, b)

/-- Outcome of `client.search(...)` inside `poll_single_watch`. -/
inductive SearchOutcome where
  | ok : List String → SearchOutcome
  | authError : SearchOutcome
  | rateLimitError : SearchOutcome
  | otherError : SearchOutcome

/-- What `poll_single_watch` does: re-raise auth errors or return matches. -/
inductive PollOutcome where
  | raisedAuth : PollOutcome
  | returned : List String → PollOutcome
deriving DecidableEq

/-- The exception routing of `poll_single_watch`: an `IKAPIAuthError` is
re-raised; an `IKAPIRateLimitError` records a backoff of
`now + polling_interval_minutes * 2` for this watch and yields `[]`; any
other exception yields `[]`; success yields the new matches. -/
def poll_single_watch (b : Backoffs) (now : Int) (w : Watch) (search : SearchOutcome) :
    PollOutcome × Backoffs :=
  match search with
  | .ok ms => (.returned ms, b)
  | .authError => (.raisedAuth, b)
  | .rateLimitError => (.returned [], setBackoff b w.id (now + (intervalOf w : Int) * 2))
  | .otherError => (.returned [], b)

/-! ### The SC-scraper circuit breaker (`sc_scrape_cycle`, `sc_scrape_for_watch`) -/

/-- How one run of `sc_scrape_cycle` ends, as seen by the circuit breaker. -/
inductive ScCycleOutcome where
  | success : ScCycleOutcome
  | captchaError : ScCycleOutcome
  | scraperError : ScCycleOutcome
  | unexpectedError : ScCycleOutcome
deriving DecidableEq

/-- The `_sc_consecutive_failures` update of one `sc_scrape_cycle` run,
returning the new counter and how many admin alerts that run sent.  Success
(including zero orders) resets the counter; `SCCaptchaError` / `SCScraperError`
increment it and send an alert whenever the incremented counter has reached
`_SC_MAX_CONSECUTIVE_FAILURES = 3`; any other exception increments it without
alerting. -/
def sc_scrape_cycle_breaker (failures : Nat) (o : ScCycleOutcome) : Nat × Nat :=
  match o with
  | .success => (0, 0)
  | .captchaError => (failures + 1, if 3 ≤ failures + 1 then 1 else 0)
  | .scraperError => (failures + 1, if 3 ≤ failures + 1 then 1 else 0)
  | .unexpectedError => (failures + 1, 0)

/-- `sc_scrape_for_watch` never touches `_sc_consecutive_failures`: its effect
on the counter is the identity. -/
def sc_scrape_for_watch_breaker (failures : Nat) : Nat := failures

/-- Iterate scheduled SC scrape cycles, accumulating the total number of
admin alerts sent. -/
def runScCycles (failures : Nat) : List ScCycleOutcome → Nat × Nat
  | [] => (failures, 0)
  | o :: os =>
    let step := sc_scrape_cycle_breaker failures o
    let rest := runScCycles step.1 os
    (rest.1, step.2 + rest.2)

/-! ## `matcher.py` — `_validate_judgment_date`

`int(date_str[:4])` is modelled by `pyIntOfString` on the first four
characters: optional surrounding whitespace, an optional sign, and a digit
run that may contain single underscores between digits — exactly the strings
Python's `int()` accepts (for ASCII input). -/

def digitVal (c : Char) : Nat := c.toNat - '0'.toNat

def natOfDigits (l : List Char) : Nat :=
  l.foldl (fun a c => a * 10 + digitVal c) 0

/-- Tail of a digit run: digits, with each underscore followed by a digit. -/
def goodRunTail : List Char → Bool
  | [] => true
  | c :: cs =>
    if c = '_' then
      match cs with
      | [] => false
      | d :: ds => d.isDigit && goodRunTail ds
    else c.isDigit && goodRunTail cs

/-- A digit run acceptable to Python `int()`: nonempty, starts with a digit,
single underscores only between digits. -/
def goodRun : List Char → Bool
  | [] => false
  | c :: cs => c.isDigit && goodRunTail cs

/-- Python `int(s)` in base 10, returning `none` where Python raises
`ValueError`. -/
def pyIntOfString (s : String) : Option Int :=
  let l := s.data.dropWhile isPySpace
  let signAndRest : Int × List Char :=
    match l with
    | '-' :: rest => (-1, rest)
    | '+' :: rest => (1, rest)
    | _ => (1, l)
  let run := signAndRest.2.takeWhile (fun c => c.isDigit || c == '_')
  let rest := signAndRest.2.dropWhile (fun c => c.isDigit || c == '_')
  if goodRun run && rest.all isPySpace then
    some (signAndRest.1 * (natOfDigits (run.filter Char.isDigit) : Int))
  else none

/-- `_validate_judgment_date` from `matcher.py`, with `datetime.now().year`
passed in as `currentYear`.  `date_str[:4]` never raises in Python, so the
caught `ValueError` is exactly a failed `int()` parse. -/
def _validate_judgment_date (currentYear : Int) (date_str : Option String) : Option String :=
  match date_str with
  | none => none
  | some s =>
    if s = "" then none
    else
      match pyIntOfString ⟨s.data.take 4⟩ with
      | none => none
      | some year => if currentYear < year then none else some s

/-! ## `sc_client.py` — `SCClient._parse_math_expression`

The normalization chain
`text.replace("X","x").replace("\u00d7","x").replace("\u00f7","/")
.replace("\u2014","-").replace("\u2013","-").replace("?","").replace("=","").strip()`
is a character map followed by removing `?`/`=` and stripping, since no
replacement produces a character consumed by a later step.  The regex
`(\\d+)\\s*([+\\-x*/])\\s*(\\d+)` is matched by a leftmost scan; its character
classes are pairwise disjoint, so maximal munch needs no backtracking. -/

/-- The per-character effect of the OCR-artifact replacements. -/
def captchaMapChar (c : Char) : Char :=
  if c = 'X' then 'x'
  else if c = '\u00d7' then 'x'
  else if c = '\u00f7' then '/'
  else if c = '\u2014' then '-'
  else if c = '\u2013' then '-'
  else c

/-- Normalization of OCR text: replacements, removal of `?`/`=`, strip. -/
def cleanCaptcha (l : List Char) : List Char :=
  stripChars ((l.map captchaMapChar).filter (fun c => !(c = '?' || c = '=')))

/-- The regex operator class `[+\-x*/]`. -/
def isOpChar (c : Char) : Bool :=
  c == '+' || c == '-' || c == 'x' || c == '*' || c == '/'

/-- Attempt the regex `(\d+)\s*([+\-x*/])\s*(\d+)` anchored at the start of
`l`, returning the two parsed integers and the operator. -/
def matchMathAt (l : List Char) : Option (Nat × Char × Nat) :=
  let d1 := l.takeWhile Char.isDigit
  let r1 := l.dropWhile Char.isDigit
  if d1.isEmpty then none
  else
    match r1.dropWhile isPySpace with
    | [] => none
    | op :: r3 =>
      if isOpChar op then
        let r4 := r3.dropWhile isPySpace
        let d2 := r4.takeWhile Char.isDigit
        if d2.isEmpty then none
        else some (natOfDigits d1, op, natOfDigits d2)
      else none

/-- `re.search` of the math pattern: try each start position left to right. -/
def searchMath : List Char → Option (Nat × Char × Nat)
  | [] => none
  | c :: cs =>
    match matchMathAt (c :: cs) with
    | some r => some r
    | none => searchMath cs

/-- `SCClient._parse_math_expression`; `SCCaptchaError` is `Except.error`. -/
def _parse_math_expression (text : String) : Except String Int :=
  match searchMath (cleanCaptcha text.data) with
  | none => Except.error ("Could not parse math from OCR text: " ++ text)
  | some (a, op, b) =>
    if op = '+' then Except.ok ((a : Int) + b)
    else if op = '-' then Except.ok ((a : Int) - b)
    else if op = 'x' ∨ op = '*' then Except.ok ((a : Int) * b)
    else if op = '/' then Except.ok (if b = 0 then 0 else ((a / b : Nat) : Int))
    else Except.error ("Unknown operator: " ++ String.mk [op])

/-- The spec's arithmetic: `+` addition, `-` subtraction, `x`/`*`
multiplication, `/` integer floor division with division by zero yielding 0
(`Nat` division is exactly that for non-negative operands). -/
def specMathValue (a : Nat) (op : Char) (b : Nat) : Int :=
  if op = '+' then (a : Int) + b
  else if op = '-' then (a : Int) - b
  else if op = 'x' ∨ op = '*' then (a : Int) * b
  else ((a / b : Nat) : Int)

/-- The spec's side condition: the cleaned text contains
`<digits> <operator> <digits>` (with optional whitespace) somewhere. -/
def hasMathPattern (l : List Char) : Prop :=
  ∃ pre d1 s1 op s2 d2 post,
    l = pre ++ d1 ++ s1 ++ op :: (s2 ++ d2 ++ post) ∧
    d1 ≠ [] ∧ d1.all Char.isDigit = true ∧ s1.all isPySpace = true ∧
    isOpChar op = true ∧ s2.all isPySpace = true ∧
    d2 ≠ [] ∧ d2.all Char.isDigit = true

/-! ## `sc_matcher.py` -/

/-- `SCOrderRecord` from `sc_client.py`: a parsed row of the SC daily-orders
results table. -/
structure SCOrderRecord where
  case_number : String
  diary_number : String
  parties : String
  order_date : Option PyDate := none
  pdf_url : String
  court : String := "Supreme Court of India"
deriving DecidableEq

/-- `MatchResult` from `sc_matcher.py`; the float score is modelled as an
exact rational. -/
structure MatchResult where
  is_match : Bool
  relevance_score : ℚ
  matched_terms : List String := []
  snippet : String := ""
deriving DecidableEq

/-- Python `needle in hay` for strings: substring containment. -/
def strContains (hay needle : String) : Bool := decide (needle.data <:+: hay.data)

/-- Python `hay.find(needle)`: index of the first occurrence, `none` for -1. -/
def strFindIdx (n : List Char) : List Char → Option Nat
  | [] => if n.isPrefixOf ([] : List Char) then some 0 else none
  | c :: t => if n.isPrefixOf (c :: t) then some 0 else (strFindIdx n t).map (· + 1)

/-- Python `hay.count(needle)`: non-overlapping occurrences, scanned left to
right. -/
def pyCount (n : List Char) : List Char → Nat
  | [] => if n.isPrefixOf ([] : List Char) then 1 else 0
  | c :: t =>
    if n.isPrefixOf (c :: t) then 1 + pyCount n (t.drop (n.length - 1))
    else pyCount n t
termination_by l => l.length
decreasing_by
  · simp only [List.length_cons, List.length_drop]
    omega
  · simp only [List.length_cons]
    omega

/-- `_extract_snippet` from `sc_matcher.py`. -/
def _extract_snippet (text term : String) (context_chars : Nat := 200) : String :=
  match strFindIdx term.data text.data with
  | none => ""
  | some idx =>
    let start := idx - context_chars / 2
    let stop := min text.data.length (idx + term.data.length + context_chars / 2)
    let snippet := pyStrip ⟨(text.data.take stop).drop start⟩
    let snippet := if 0 < start then "..." ++ snippet else snippet
    if stop < text.data.length then snippet ++ "..." else snippet

/-- The lowercased search corpus: `" ".join([parties or "", case_number or ""]
+ ([full_text] if full_text else [])).lower()`. -/
def searchableOf (order : SCOrderRecord) (full_text : Option String) : String :=
  match full_text with
  | some t =>
    if t = "" then pyLower (order.parties ++ " " ++ order.case_number)
    else pyLower (order.parties ++ " " ++ order.case_number ++ " " ++ t)
  | none => pyLower (order.parties ++ " " ++ order.case_number)

/-- `_match_entity`: exact phrase in parties (0.9) or anywhere in the corpus
(0.5). -/
def _match_entity (query_terms searchable : String) (order : SCOrderRecord) : MatchResult :=
  let phrase := pyLower query_terms
  let in_parties := strContains (pyLower order.parties) phrase
  let in_text := strContains searchable phrase
  if !in_text then { is_match := false, relevance_score := 0 }
  else
    { is_match := true,
      relevance_score := if in_parties then 9/10 else 1/2,
      matched_terms := [query_terms],
      snippet := _extract_snippet searchable phrase }

/-- `_match_topic`: all terms must appear; score
`min(0.3 + total_count * 0.05, 1.0)`. -/
def _match_topic (query_terms searchable : String) (order : SCOrderRecord) : MatchResult :=
  let terms :=
    if query_terms.data.contains ',' then
      (((pySplitChar query_terms ',').map pyStrip).filter (· ≠ "")).map pyLower
    else
      pySplitWs (pyLower query_terms)
  if terms = [] then { is_match := false, relevance_score := 0 }
  else
    let matched := terms.filter (fun t => strContains searchable t)
    if matched.length < terms.length then { is_match := false, relevance_score := 0 }
    else
      let total_count := (matched.map (fun t => pyCount t.data searchable.data)).sum
      { is_match := true,
        relevance_score := min (3/10 + total_count * (1/20)) 1,
        matched_terms := matched,
        snippet := _extract_snippet searchable (matched.headD "") }

/-- `_match_act`: exact phrase; score `min(0.4 + count * 0.1, 1.0)`. -/
def _match_act (query_terms searchable : String) (order : SCOrderRecord) : MatchResult :=
  let phrase := pyLower query_terms
  if !(strContains searchable phrase) then { is_match := false, relevance_score := 0 }
  else
    let count := pyCount phrase.data searchable.data
    { is_match := true,
      relevance_score := min (2/5 + count * (1/10)) 1,
      matched_terms := [query_terms],
      snippet := _extract_snippet searchable phrase }

/-- `match_order_against_watch` from `sc_matcher.py`. -/
def match_order_against_watch (order : SCOrderRecord) (watch : Watch)
    (full_text : Option String := none) : MatchResult :=
  let query_terms := pyStrip watch.query_terms
  if query_terms = "" then { is_match := false, relevance_score := 0 }
  else
    let searchable := searchableOf order full_text
    if watch.watch_type = "entity" then _match_entity query_terms searchable order
    else if watch.watch_type = "topic" then _match_topic query_terms searchable order
    else if watch.watch_type = "act" then _match_act query_terms searchable order
    else { is_match := false, relevance_score := 0 }

/-! ## `matcher.py` — `process_sc_orders` (SC-scraper dedup path)

`process_sc_orders` is imported from `vigil.matcher` by `polling.py` and
exercised by `tests/test_matcher_sc.py`, but its definition is not among the
provided sources; it is modelled here from spec §4.8.  Storage is abstracted:
the upsert returns the judgment row id (or `none` for the defensive
no-row path) and the match insert returns the created row (or `none`). -/

/-- A judgment row as persisted by the SC-scraper path. -/
structure SCJudgmentRow where
  source : String
  ik_doc_id : Option Int
  sc_case_number : String
  title : String
  court : String
  judgment_date : Option PyDate
  external_url : String
  full_text : String
deriving DecidableEq

/-- A watch-match row as persisted by the SC-scraper path. -/
structure WatchMatchRow where
  watch_id : String
  judgment_id : String
  is_notified : Bool
  snippet : String
deriving DecidableEq

/-- Python `s[:n]`. -/
def strTake (s : String) (n : Nat) : String := ⟨s.data.take n⟩

/-- Modelled from the spec: the Judgment upserted by `process_sc_orders`
(absent from src) for one `(order, match_result, full_text)` tuple —
`source="sc_website"`, `ik_doc_id=null`, `sc_case_number` from the order, a
title built from the order's parties text, `court` = the order's court,
`judgment_date` from the order date, `external_url` = the PDF URL, and
`full_text` truncated to the first 100,000 characters. -/
def sc_judgment_row (order : SCOrderRecord) (full_text : String) : SCJudgmentRow :=
  { source := "sc_website"
    ik_doc_id := none
    sc_case_number := order.case_number
    title := order.parties
    court := order.court
    judgment_date := order.order_date
    external_url := order.pdf_url
    full_text := strTake full_text 100000 }

/-- Modelled from the spec: the WatchMatch inserted by `process_sc_orders`
(absent from src) — `is_notified=false` and `snippet` = the match result's
snippet truncated to 500 characters. -/
def sc_watch_match_row (watch_id judgment_id : String) (mr : MatchResult) : WatchMatchRow :=
  { watch_id := watch_id
    judgment_id := judgment_id
    is_notified := false
    snippet := strTake mr.snippet 500 }

/-- Modelled from the spec: `process_sc_orders(watch_id, tuples)` (absent from
src) — for each tuple upsert the judgment; if the upsert returns no row skip,
else insert the watch match; return the newly created match rows. -/
def process_sc_orders (upsert : SCJudgmentRow → Option String)
    (insertMatch : WatchMatchRow → Option WatchMatchRow) (watch_id : String) :
    List (SCOrderRecord × MatchResult × String) → List WatchMatchRow
  | [] => []
  | (order, mr, full_text) :: rest =>
    let tail := process_sc_orders upsert insertMatch watch_id rest
    match upsert (sc_judgment_row order full_text) with
    | none => tail
    | some jid =>
      match insertMatch (sc_watch_match_row watch_id jid mr) with
      | none => tail
      | some row => row :: tail

/-! ## `notifier.py`

The pure content of `send_email_alert` (subject and body composition) and the
state logic of `dispatch_pending_notifications`.  Joined judgment fields are
dict lookups with defaults, so absent keys are `Option`s read with `getD`;
actual SMTP/webhook delivery is abstracted into per-watch outcome functions. -/

/-- The judgment fields the notifier reads from the joined `judgments` dict. -/
structure JudgmentInfo where
  title : Option String := none
  court : Option String := none
  ik_url : Option String := none
  external_url : Option String := none
deriving DecidableEq

/-- A fetched watch-match row joined with its judgment, as the email/slack
composers see it. -/
structure MatchRecord where
  judgments : JudgmentInfo := {}
deriving DecidableEq

/-- `msg["Subject"]` in `send_email_alert`. -/
def email_subject (watch_name : String) (ms : List MatchRecord) : String :=
  "[Vigil] " ++ watch_name ++ ": " ++ toString ms.length ++ " new judgment(s)"

/-- The per-match body lines of `send_email_alert`, from `enumerate(matches, i)`:
title, court, a link taken from `j.get("ik_url", "")`, and a blank line. -/
def emailEntryLines : Nat → List MatchRecord → List String
  | _, [] => []
  | i, m :: rest =>
    ("  " ++ toString i ++ ". " ++ m.judgments.title.getD "Unknown") ::
    ("     Court: " ++ m.judgments.court.getD "Unknown") ::
    ("     Link:  " ++ m.judgments.ik_url.getD "") ::
    "" :: emailEntryLines (i + 1) rest

/-- Python `"=" * 40`. -/
def eqLine : String := ⟨List.replicate 40 '='⟩

/-- The full `body_lines` list of `send_email_alert`. -/
def emailBodyLines (watch_name : String) (ms : List MatchRecord) : List String :=
  ["Vigil — Judgment Alert", "Watch: " ++ watch_name,
    toString ms.length ++ " new judgment(s) matched", "", eqLine, ""]
  ++ emailEntryLines 1 ms
  ++ [eqLine, "", "Vigil · Trilegal Internal Tool"]

/-- `"\n".join(body_lines)`: the plain-text body set on the message. -/
def send_email_alert_body (watch_name : String) (ms : List MatchRecord) : String :=
  String.intercalate "\n" (emailBodyLines watch_name ms)

/-! ### `dispatch_pending_notifications` -/

/-- A `watch_matches` row as the dispatcher reads and updates it. -/
structure MatchRow where
  id : String
  watch_id : String
  retry_count : Nat := 0
  is_notified : Bool := false
deriving DecidableEq

/-- The notification channel configuration read from settings. -/
structure NotifSettings where
  notification_email_enabled : Bool
  notification_slack_enabled : Bool
  notification_email_recipients : String
  slack_webhook_url : String

/-- The recipient-list parse `[e.strip() for e in raw.split(",") if e.strip()]`. -/
def parseRecipients (raw : String) : List String :=
  ((pySplitChar raw ',').map pyStrip).filter (· ≠ "")

/-- Email delivery is attempted iff the channel is enabled and at least one
recipient is configured. -/
def emailAttempted (s : NotifSettings) : Bool :=
  s.notification_email_enabled && !(parseRecipients s.notification_email_recipients).isEmpty

/-- Webhook delivery is attempted iff the channel is enabled and a URL is
configured. -/
def slackAttempted (s : NotifSettings) : Bool :=
  s.notification_slack_enabled && !(s.slack_webhook_url == "")

/-- A watch group's dispatch succeeds iff some attempted channel reports
success. -/
def groupSuccess (s : NotifSettings) (emailOk slackOk : String → Bool) (wid : String) : Bool :=
  (emailAttempted s && emailOk wid) || (slackAttempted s && slackOk wid)

/-- One run of `dispatch_pending_notifications` over the fetched
`watch_matches` rows: filters to un-notified rows with `retry_count < 3`,
groups them by watch, attempts the configured channels per group, marks the
group notified on success and increments each row's `retry_count` on failure.
Returns the updated rows and the number of channel delivery attempts made. -/
def dispatch_pending_notifications (s : NotifSettings) (emailOk slackOk : String → Bool)
    (rows : List MatchRow) : List MatchRow × Nat :=
  let pending := rows.filter (fun m => !m.is_notified && decide (m.retry_count < 3))
  let groups := (pending.map (·.watch_id)).dedup
  let attempts := groups.length *
    ((if emailAttempted s then 1 else 0) + (if slackAttempted s then 1 else 0))
  let updated := rows.map (fun m =>
    if !m.is_notified && decide (m.retry_count < 3) then
      if groupSuccess s emailOk slackOk m.watch_id then
        { m with is_notified := true }
      else
        { m with retry_count := m.retry_count + 1 }
    else m)
  (updated, attempts)

/-- The row-state effect of one dispatch cycle. -/
def dispatchStep (s : NotifSettings) (emailOk slackOk : String → Bool)
    (rows : List MatchRow) : List MatchRow :=
  (dispatch_pending_notifications s emailOk slackOk rows).1

/-! ### Concrete fixtures used by witnesses and counterexamples -/

/-- A joined judgment carrying a search-API URL. -/
def judgmentWithIkUrl : JudgmentInfo :=
  { title := some "T"
    court := some "C"
    ik_url := some "https://indiankanoon.org/doc/1/" }

/-- A match record whose judgment has a search-API URL. -/
def matchWithIkUrl : MatchRecord := { judgments := judgmentWithIkUrl }

/-- A joined judgment with no search-API URL but a scraper URL. -/
def judgmentScraperOnly : JudgmentInfo :=
  { title := some "State vs Acme"
    court := some "Supreme Court of India"
    ik_url := none
    external_url := some "https://sci.gov.in/pdf/o.pdf" }

/-- A match record whose judgment only has the scraper URL. -/
def matchScraperOnly : MatchRecord := { judgments := judgmentScraperOnly }

/-- Email enabled but no recipients; webhook configured but disabled. -/
def settingsNoChannel : NotifSettings :=
  { notification_email_enabled := true
    notification_slack_enabled := false
    notification_email_recipients := ""
    slack_webhook_url := "https://hooks.example/x" }

/-- Two fresh un-notified matches. -/
def freshRow1 : MatchRow := { id := "m1", watch_id := "w1" }

/-- Second fresh un-notified match. -/
def freshRow2 : MatchRow := { id := "m2", watch_id := "w2" }

end Vigil

namespace Vigil

/-! # Theorems settling the claims -/

/-! ## Support lemmas for C2 -/

theorem ikRequestAux_retry_step {script : Nat → HttpOutcome} {m fuel attempt : Nat} {b : Bool}
    {sleeps : List Nat} (h : retryable (script attempt)) :
    ikRequestAux script m (fuel + 1) attempt b sleeps
      = ikRequestAux script m fuel (attempt + 1) (isTimeoutOutcome (script attempt))
          (if attempt < m then sleeps ++ [2 ^ (attempt + 1)] else sleeps) := by
  rcases h with h | ⟨c, j, h, hc⟩
  · rw [ikRequestAux, h]
    rfl
  · have h403 : ¬ c = 403 := by omega
    have h429 : ¬ c = 429 := by omega
    have hcl : ¬ (400 ≤ c ∧ c < 500) := by omega
    rw [ikRequestAux, h]
    simp only [h403, h429, hcl, hc, if_false, if_true, ite_false, ite_true, if_neg, if_pos]
    rfl

theorem ikRequest_runTo (script : Nat → HttpOutcome) (m : Nat) :
    ∀ k, k ≤ m + 1 → (∀ i, i < k → retryable (script i)) →
      ikRequest script m
        = ikRequestAux script m (m + 1 - k) k (lastFlagB script k) (backoffSleeps (min k m)) := by
  intro k
  induction k with
  | zero =>
    intro _ _
    rw [min_eq_left (Nat.zero_le m)]
    rfl
  | succ k ih =>
    intro hk hr
    have hk' : k ≤ m := by omega
    rw [ih (by omega) (fun i hi => hr i (by omega))]
    have hfuel : m + 1 - k = (m - k) + 1 := by omega
    rw [hfuel, ikRequestAux_retry_step (hr k (by omega))]
    have hfuel2 : m - k = m + 1 - (k + 1) := by omega
    rw [hfuel2]
    by_cases hlt : k < m
    · have hmin : min k m = k := by omega
      have hmin2 : min (k + 1) m = k + 1 := by omega
      rw [if_pos hlt, hmin, hmin2]
      have : backoffSleeps k ++ [2 ^ (k + 1)] = backoffSleeps (k + 1) := by
        unfold backoffSleeps
        rw [List.range_succ, List.map_append]
        simp
      rw [this]
      rfl
    · have hkm : k = m := by omega
      have hmin : min k m = m := by omega
      have hmin2 : min (k + 1) m = m := by omega
      rw [if_neg hlt, hmin, hmin2]
      rfl

/-- C1 (amended): for every input, `build_query` returns exactly the string
the spec's rules define, once the entity/act term is stripped of surrounding
whitespace before quoting and the topic-piece quoting test is read as
"contains a space character"; and the spec's worked entity example evaluates
as stated. -/
theorem build_query_follows_amended_spec :
    (∀ wt qt cf fd td, build_query wt qt cf fd td = specBuildQueryAmended wt qt cf fd td) ∧
    build_query "entity" "Amazon Web Services" ["supremecourt", "delhi"] ⟨2026, 2, 15⟩ none
      = Except.ok "\"Amazon Web Services\" doctypes:supremecourt,delhi fromdate:15-02-2026" := by
  refine ⟨?_, rfl⟩
  intro wt qt cf fd td
  unfold build_query specBuildQueryAmended specBuildQueryWith specTermsPart
    amendedEntityTerm amendedTopicPiece
  by_cases h1 : wt = "entity" <;> by_cases h2 : wt = "topic" <;> by_cases h3 : wt = "act" <;>
    simp [h1, h2, h3] <;> cases td <;> rfl

/-- C1 counterexamples against the spec's rules read literally.  First, a
comma-separated topic piece containing a tab (internal whitespace but not a
space) is left bare by the code while the literal rule quotes it.  Second, a
whitespace-padded entity term is stripped by the code before quoting, while
the literal rule wraps the entire `query_terms` string, padding included. -/
theorem build_query_literal_spec_counterexample :
    (build_query "topic" "a\tb,c" [] ⟨2026, 2, 15⟩ none
        = Except.ok "a\tb ANDD c fromdate:15-02-2026" ∧
      specBuildQuery "topic" "a\tb,c" [] ⟨2026, 2, 15⟩ none
        = Except.ok "\"a\tb\" ANDD c fromdate:15-02-2026" ∧
      ("a\tb ANDD c fromdate:15-02-2026" : String)
        ≠ "\"a\tb\" ANDD c fromdate:15-02-2026") ∧
    (build_query "entity" " Acme Corp " [] ⟨2026, 2, 15⟩ none
        = Except.ok "\"Acme Corp\" fromdate:15-02-2026" ∧
      specBuildQuery "entity" " Acme Corp " [] ⟨2026, 2, 15⟩ none
        = Except.ok "\" Acme Corp \" fromdate:15-02-2026" ∧
      ("\"Acme Corp\" fromdate:15-02-2026" : String)
        ≠ "\" Acme Corp \" fromdate:15-02-2026") :=
  ⟨⟨rfl, rfl, by decide⟩, ⟨rfl, rfl, by decide⟩⟩

/-- C2: the search-API request logic — 403 fails immediately with AuthError,
429 with RateLimitError, any other 4xx with a generic client error, a 2xx
body that is not valid JSON with a generic API error, all without retry;
5xx and timeouts are retried with sleeps of 2, 4, 8, … seconds for up to
`max_retries` additional attempts, after which the call fails with
TimeoutError iff the final failure was a timeout, else a generic API error. -/
theorem ik_request_retry_policy (m : Nat) (script : Nat → HttpOutcome) :
    (∀ k (j : Bool), k ≤ m → (∀ i, i < k → retryable (script i)) →
      (script k = HttpOutcome.status 403 j →
        ikRequest script m = (ReqResult.authError, backoffSleeps k)) ∧
      (script k = HttpOutcome.status 429 j →
        ikRequest script m = (ReqResult.rateLimitError, backoffSleeps k)) ∧
      (∀ c, script k = HttpOutcome.status c j → 400 ≤ c → c < 500 → c ≠ 403 → c ≠ 429 →
        ikRequest script m = (ReqResult.clientError c, backoffSleeps k)) ∧
      (∀ c, script k = HttpOutcome.status c j → 200 ≤ c → c < 300 →
        ikRequest script m
          = ((if j then ReqResult.ok else ReqResult.malformedJson), backoffSleeps k))) ∧
    ((∀ i, i ≤ m → retryable (script i)) →
      ikRequest script m
        = ((if isTimeoutOutcome (script m) then ReqResult.timeoutError else ReqResult.apiError),
            backoffSleeps m)) := by
  constructor
  · intro k j hk hr
    have hrun := ikRequest_runTo script m k (by omega) hr
    have hmin : min k m = k := by omega
    have hfuel : m + 1 - k = (m - k) + 1 := by omega
    rw [hmin, hfuel] at hrun
    refine ⟨?_, ?_, ?_, ?_⟩
    · intro h
      rw [hrun, ikRequestAux, h]
      rfl
    · intro h
      rw [hrun, ikRequestAux, h]
      rfl
    · intro c h h1 h2 h3 h4
      rw [hrun, ikRequestAux, h]
      simp only [h3, h4, ite_false, if_neg]
      rw [if_pos ⟨h1, h2⟩]
    · intro c h h1 h2
      have h3 : ¬ c = 403 := by omega
      have h4 : ¬ c = 429 := by omega
      have h5 : ¬ (400 ≤ c ∧ c < 500) := by omega
      have h6 : ¬ 500 ≤ c := by omega
      rw [hrun, ikRequestAux, h]
      dsimp only
      rw [if_neg h3, if_neg h4, if_neg h5, if_neg h6]
      cases j <;> rfl
  · intro hr
    have hrun := ikRequest_runTo script m (m + 1) (by omega) (fun i hi => hr i (by omega))
    have hmin : min (m + 1) m = m := by omega
    have hfuel : m + 1 - (m + 1) = 0 := by omega
    rw [hmin, hfuel] at hrun
    rw [hrun, ikRequestAux]
    rfl

/-- C2 witness: with `max_retries = 3`, a timeout on the first attempt
followed by a 403 fails with AuthError after a single 2-second backoff. -/
theorem ik_request_retry_policy_witness :
    (1 : Nat) ≤ 3 ∧
    ikRequest (fun i => if i = 0 then HttpOutcome.timeout else HttpOutcome.status 403 true) 3
      = (ReqResult.authError, [2]) := by
  refine ⟨by omega, ?_⟩
  exact ((ik_request_retry_policy 3
      (fun i => if i = 0 then HttpOutcome.timeout else HttpOutcome.status 403 true)).1
    1 true (by omega)
    (fun i hi => by
      have h0 : i = 0 := by omega
      subst h0
      exact Or.inl rfl)).1 rfl

/-! ## Support lemmas for C3 -/

theorem lookupBackoff_set (b : Backoffs) (id : String) (t : Int) :
    lookupBackoff (setBackoff b id t) id = some t := by
  simp [lookupBackoff, setBackoff, List.find?]

theorem lookupBackoff_erase (b : Backoffs) (id : String) :
    lookupBackoff (eraseBackoff b id) id = none := by
  unfold lookupBackoff eraseBackoff
  rw [List.find?_eq_none.mpr]
  · rfl
  · intro x hx
    simp only [List.mem_filter] at hx
    simpa using hx.2

/-- C3: a rate-limit (429) error in `poll_single_watch` is caught: the call
returns an empty list and records a backoff expiring at
`now + 2 × polling_interval_minutes`; while that backoff is unexpired,
`_is_due` answers `false` and leaves the map unchanged, and at any time at or
past expiry the entry is lazily cleared by the due-check. -/
theorem poll_rate_limit_backoff (b : Backoffs) (now : Int) (w : Watch) :
    (poll_single_watch b now w SearchOutcome.rateLimitError).1 = PollOutcome.returned [] ∧
    lookupBackoff (poll_single_watch b now w SearchOutcome.rateLimitError).2 w.id
      = some (now + 2 * (intervalOf w : Int)) ∧
    (∀ t : Int, t < now + 2 * (intervalOf w : Int) →
      (_is_due (poll_single_watch b now w SearchOutcome.rateLimitError).2 t w).1 = false ∧
      (_is_due (poll_single_watch b now w SearchOutcome.rateLimitError).2 t w).2
        = (poll_single_watch b now w SearchOutcome.rateLimitError).2) ∧
    (∀ t : Int, now + 2 * (intervalOf w : Int) ≤ t →
      lookupBackoff
          (_is_due (poll_single_watch b now w SearchOutcome.rateLimitError).2 t w).2 w.id
        = none) := by
  have hkey : (poll_single_watch b now w SearchOutcome.rateLimitError).2
      = setBackoff b w.id (now + (intervalOf w : Int) * 2) := rfl
  have hmul : now + (intervalOf w : Int) * 2 = now + 2 * (intervalOf w : Int) := by ring
  have hlook : lookupBackoff (poll_single_watch b now w SearchOutcome.rateLimitError).2 w.id
      = some (now + 2 * (intervalOf w : Int)) := by
    rw [hkey, lookupBackoff_set, hmul]
  have hdue : ∀ t : Int, t < now + 2 * (intervalOf w : Int) →
      _is_due (poll_single_watch b now w SearchOutcome.rateLimitError).2 t w
        = (false, (poll_single_watch b now w SearchOutcome.rateLimitError).2) := by
    intro t ht
    unfold _is_due
    rw [hlook]
    simp [ht]
  have hdue2 : ∀ t : Int, now + 2 * (intervalOf w : Int) ≤ t →
      _is_due (poll_single_watch b now w SearchOutcome.rateLimitError).2 t w
        = (dueByInterval w t,
            eraseBackoff (poll_single_watch b now w SearchOutcome.rateLimitError).2 w.id) := by
    intro t ht
    unfold _is_due
    rw [hlook]
    have hnl : ¬ t < now + 2 * (intervalOf w : Int) := by omega
    simp [hnl]
  refine ⟨rfl, hlook, fun t ht => ⟨by rw [hdue t ht], by rw [hdue t ht]⟩, fun t ht => ?_⟩
  rw [hdue2 t ht]
  exact lookupBackoff_erase _ _

/-- C3 witness: a 429 for a watch with a 60-minute interval at time 0 leaves
the watch not due at minute 119. -/
theorem poll_rate_limit_backoff_witness :
    ((119 : Int) < 0 + 2 * ((60 : Nat) : Int)) ∧
    (_is_due (poll_single_watch [] 0
        { id := "w1", polling_interval_minutes := some 60 } SearchOutcome.rateLimitError).2 119
        { id := "w1", polling_interval_minutes := some 60 }).1 = false := by
  refine ⟨by norm_num, ?_⟩
  exact ((poll_rate_limit_backoff [] 0
    { id := "w1", polling_interval_minutes := some 60 }).2.2.1 119 (by norm_num [intervalOf])).1

/-- C4 counterexample: four consecutive captcha failures of the scheduled SC
scrape cycle send two admin alerts (one at the third failure and another at
the fourth), not exactly one. -/
theorem sc_circuit_breaker_realerts_counterexample :
    runScCycles 0 [ScCycleOutcome.captchaError, ScCycleOutcome.captchaError,
        ScCycleOutcome.captchaError, ScCycleOutcome.captchaError] = (4, 2) ∧
    (2 : Nat) ≠ 1 :=
  ⟨rfl, by decide⟩

theorem runScCycles_replicate_alerting {o : ScCycleOutcome}
    (ho : o = ScCycleOutcome.captchaError ∨ o = ScCycleOutcome.scraperError) :
    ∀ n f, runScCycles f (List.replicate n o) = (f + n, n - (2 - f)) := by
  intro n
  induction n with
  | zero => intro f; simp [runScCycles]
  | succ n ih =>
    intro f
    rw [List.replicate_succ]
    show (let step := sc_scrape_cycle_breaker f o
          let rest := runScCycles step.1 (List.replicate n o)
          (rest.1, step.2 + rest.2))
      = (f + (n + 1), (n + 1) - (2 - f))
    have hstep : sc_scrape_cycle_breaker f o = (f + 1, if 3 ≤ f + 1 then 1 else 0) := by
      rcases ho with rfl | rfl <;> rfl
    rw [hstep]
    dsimp only
    rw [ih (f + 1)]
    by_cases h3 : 3 ≤ f + 1
    · simp only [h3, if_true]
      refine Prod.ext ?_ ?_ <;> simp <;> omega
    · simp only [h3, if_false]
      refine Prod.ext ?_ ?_ <;> simp <;> omega

/-- C4 (amended): every captcha/scraper/unexpected failure of the scheduled
cycle increments the consecutive-failure counter and every success resets it
to 0; a captcha or scraper failure sends exactly one admin alert whenever the
incremented counter has reached the threshold 3, and sends one only then —
so the third consecutive failure and every later consecutive captcha/scraper
failure each alert (`n` consecutive captcha or scraper failures from a clean
state send `n - 2` alerts); unexpected failures never alert; and a
"poll now" SC scrape (`sc_scrape_for_watch`) never modifies the counter. -/
theorem sc_circuit_breaker_behavior :
    (∀ f, sc_scrape_cycle_breaker f ScCycleOutcome.success = (0, 0)) ∧
    (∀ f o, o ≠ ScCycleOutcome.success → (sc_scrape_cycle_breaker f o).1 = f + 1) ∧
    (∀ f o, 2 ≤ f → (o = ScCycleOutcome.captchaError ∨ o = ScCycleOutcome.scraperError) →
      (sc_scrape_cycle_breaker f o).2 = 1) ∧
    (∀ f o, (sc_scrape_cycle_breaker f o).2 = 1 →
      (o = ScCycleOutcome.captchaError ∨ o = ScCycleOutcome.scraperError) ∧ 2 ≤ f) ∧
    (∀ f, (sc_scrape_cycle_breaker f ScCycleOutcome.unexpectedError).2 = 0) ∧
    (∀ n f, runScCycles f (List.replicate n ScCycleOutcome.captchaError)
      = (f + n, n - (2 - f))) ∧
    (∀ n f, runScCycles f (List.replicate n ScCycleOutcome.scraperError)
      = (f + n, n - (2 - f))) ∧
    (∀ f, sc_scrape_for_watch_breaker f = f) := by
  refine ⟨fun f => rfl, ?_, ?_, ?_, fun f => rfl,
    runScCycles_replicate_alerting (Or.inl rfl),
    runScCycles_replicate_alerting (Or.inr rfl), fun f => rfl⟩
  · intro f o ho
    cases o
    · exact absurd rfl ho
    · rfl
    · rfl
    · rfl
  · intro f o hf ho
    have h3 : 3 ≤ f + 1 := by omega
    rcases ho with rfl | rfl <;> simp [sc_scrape_cycle_breaker, h3]
  · intro f o h
    cases o
    · simp [sc_scrape_cycle_breaker] at h
    · refine ⟨Or.inl rfl, ?_⟩
      by_cases h3 : 3 ≤ f + 1
      · omega
      · simp [sc_scrape_cycle_breaker, h3] at h
    · refine ⟨Or.inr rfl, ?_⟩
      by_cases h3 : 3 ≤ f + 1
      · omega
      · simp [sc_scrape_cycle_breaker, h3] at h
    · simp [sc_scrape_cycle_breaker] at h

/-- C4 witness: a scraper failure that brings the counter from 2 to 3 sends
an admin alert. -/
theorem sc_circuit_breaker_behavior_witness :
    ((2 : Nat) ≤ 2 ∧ (ScCycleOutcome.scraperError = ScCycleOutcome.captchaError ∨
        ScCycleOutcome.scraperError = ScCycleOutcome.scraperError)) ∧
    (sc_scrape_cycle_breaker 2 ScCycleOutcome.scraperError).2 = 1 :=
  ⟨⟨by omega, Or.inr rfl⟩,
    sc_circuit_breaker_behavior.2.2.1 2 ScCycleOutcome.scraperError (by omega) (Or.inr rfl)⟩

/-- C5: a `publishdate` value is kept unchanged iff its leading four
characters parse as an integer year not exceeding the current calendar year;
otherwise (unparseable prefix, future year, empty or absent input) the stored
judgment date is absent.  In particular "3015-03-30" and "6648-09-02" are
rejected while "1950-01-26" and a current-year date pass through unchanged. -/
theorem judgment_date_validation (cy : Int) :
    (∀ s : String,
      (_validate_judgment_date cy (some s) = some s ↔
        ∃ y, pyIntOfString ⟨s.data.take 4⟩ = some y ∧ y ≤ cy) ∧
      (_validate_judgment_date cy (some s) = none ↔
        ¬ ∃ y, pyIntOfString ⟨s.data.take 4⟩ = some y ∧ y ≤ cy)) ∧
    _validate_judgment_date cy none = none ∧
    _validate_judgment_date 2026 (some "3015-03-30") = none ∧
    _validate_judgment_date 2026 (some "6648-09-02") = none ∧
    _validate_judgment_date 2026 (some "1950-01-26") = some "1950-01-26" ∧
    _validate_judgment_date 2026 (some "2026-07-04") = some "2026-07-04" ∧
    _validate_judgment_date 2026 (some "") = none ∧
    _validate_judgment_date 2026 (some "abcd-01-01") = none := by
  refine ⟨?_, rfl, rfl, rfl, rfl, rfl, rfl, rfl⟩
  intro s
  have hval : _validate_judgment_date cy (some s) = some s ∨
      _validate_judgment_date cy (some s) = none := by
    unfold _validate_judgment_date
    dsimp only
    by_cases hs : s = ""
    · rw [if_pos hs]
      exact Or.inr rfl
    · rw [if_neg hs]
      rcases heq : pyIntOfString ⟨s.data.take 4⟩ with _ | y
      · exact Or.inr rfl
      · dsimp only
        by_cases hy : cy < y
        · rw [if_pos hy]
          exact Or.inr rfl
        · rw [if_neg hy]
          exact Or.inl rfl
  have hiff : _validate_judgment_date cy (some s) = some s ↔
      ∃ y, pyIntOfString ⟨s.data.take 4⟩ = some y ∧ y ≤ cy := by
    constructor
    · intro h
      unfold _validate_judgment_date at h
      dsimp only at h
      by_cases hs : s = ""
      · rw [if_pos hs] at h
        exact absurd h (by simp)
      · rw [if_neg hs] at h
        rcases heq : pyIntOfString ⟨s.data.take 4⟩ with _ | y
        · rw [heq] at h
          exact absurd h (by simp)
        · rw [heq] at h
          dsimp only at h
          by_cases hy : cy < y
          · rw [if_pos hy] at h
            exact absurd h (by simp)
          · exact ⟨y, rfl, by omega⟩
    · rintro ⟨y, hy, hle⟩
      have hs : ¬ s = "" := by
        intro h
        subst h
        rw [show pyIntOfString ⟨("" : String).data.take 4⟩ = none from rfl] at hy
        exact Option.noConfusion hy
      unfold _validate_judgment_date
      dsimp only
      rw [if_neg hs, hy]
      dsimp only
      rw [if_neg (by omega : ¬ cy < y)]
  refine ⟨hiff, ?_, ?_⟩
  · intro h hex
    rw [hiff.mpr hex] at h
    exact Option.noConfusion h
  · intro hnex
    rcases hval with h | h
    · exact absurd (hiff.mp h) hnex
    · exact h

/-- C5 witness: for current year 2026, the prefix of "1950-01-26" parses to
1950 ≤ 2026, so the mapping keeps the value. -/
theorem judgment_date_validation_witness :
    (pyIntOfString ⟨("1950-01-26" : String).data.take 4⟩ = some 1950 ∧ (1950 : Int) ≤ 2026) ∧
    _validate_judgment_date 2026 (some "1950-01-26") = some "1950-01-26" :=
  ⟨⟨rfl, by norm_num⟩,
    ((judgment_date_validation 2026).1 "1950-01-26").1.mpr ⟨1950, rfl, by norm_num⟩⟩

/-! ## Support lemmas for C6 -/

theorem takeWhile_append_of_all {p : Char → Bool} {xs : List Char} (ys : List Char)
    (h : xs.all p = true) : (xs ++ ys).takeWhile p = xs ++ ys.takeWhile p := by
  induction xs with
  | nil => simp
  | cons a t ih =>
    simp only [List.all_cons, Bool.and_eq_true] at h
    simp [List.takeWhile_cons_of_pos h.1, ih h.2]

theorem dropWhile_append_of_all {p : Char → Bool} {xs : List Char} (ys : List Char)
    (h : xs.all p = true) : (xs ++ ys).dropWhile p = ys.dropWhile p := by
  induction xs with
  | nil => simp
  | cons a t ih =>
    simp only [List.all_cons, Bool.and_eq_true] at h
    simp [List.dropWhile_cons_of_pos h.1, ih h.2]

theorem isPySpace_cases {c : Char} (h : isPySpace c = true) :
    c = ' ' ∨ c = '\t' ∨ c = '\n' ∨ c = '\r' ∨ c = '\x0b' ∨ c = '\x0c' := by
  simp only [isPySpace, Bool.or_eq_true, beq_iff_eq] at h
  tauto

theorem isOpChar_cases {c : Char} (h : isOpChar c = true) :
    c = '+' ∨ c = '-' ∨ c = 'x' ∨ c = '*' ∨ c = '/' := by
  simp only [isOpChar, Bool.or_eq_true, beq_iff_eq] at h
  tauto

theorem space_not_digit {c : Char} (h : isPySpace c = true) : c.isDigit = false := by
  rcases isPySpace_cases h with h1 | h1 | h1 | h1 | h1 | h1 <;> subst h1 <;> rfl

theorem digit_not_space {c : Char} (h : c.isDigit = true) : isPySpace c = false := by
  cases hps : isPySpace c
  · rfl
  · rcases isPySpace_cases hps with h1 | h1 | h1 | h1 | h1 | h1 <;> subst h1 <;>
      exact absurd h (by decide)

theorem op_not_digit {c : Char} (h : isOpChar c = true) : c.isDigit = false := by
  rcases isOpChar_cases h with h1 | h1 | h1 | h1 | h1 <;> subst h1 <;> rfl

theorem op_not_space {c : Char} (h : isOpChar c = true) : isPySpace c = false := by
  rcases isOpChar_cases h with h1 | h1 | h1 | h1 | h1 <;> subst h1 <;> rfl

theorem captchaMapChar_digit {c : Char} (h : c.isDigit = true) : captchaMapChar c = c := by
  have h1 : ¬ c = 'X' := fun hc => by subst hc; exact absurd h (by decide)
  have h2 : ¬ c = '\u00d7' := fun hc => by subst hc; exact absurd h (by decide)
  have h3 : ¬ c = '\u00f7' := fun hc => by subst hc; exact absurd h (by decide)
  have h4 : ¬ c = '\u2014' := fun hc => by subst hc; exact absurd h (by decide)
  have h5 : ¬ c = '\u2013' := fun hc => by subst hc; exact absurd h (by decide)
  simp [captchaMapChar, h1, h2, h3, h4, h5]

theorem captchaMapChar_op {c : Char} (h : isOpChar c = true) : captchaMapChar c = c := by
  rcases isOpChar_cases h with h1 | h1 | h1 | h1 | h1 <;> subst h1 <;> rfl

theorem digit_not_stripped {c : Char} (h : c.isDigit = true) :
    (!(c = '?' || c = '=')) = true := by
  have h1 : ¬ c = '?' := fun hc => by subst hc; exact absurd h (by decide)
  have h2 : ¬ c = '=' := fun hc => by subst hc; exact absurd h (by decide)
  simp [h1, h2]

theorem op_not_stripped {c : Char} (h : isOpChar c = true) :
    (!(c = '?' || c = '=')) = true := by
  rcases isOpChar_cases h with h1 | h1 | h1 | h1 | h1 <;> subst h1 <;> rfl

theorem stripChars_eq_self {l : List Char}
    (h1 : ∀ c, l.head? = some c → isPySpace c = false)
    (h2 : ∀ c, l.getLast? = some c → isPySpace c = false) :
    stripChars l = l := by
  unfold stripChars
  have hd : l.dropWhile isPySpace = l := by
    cases l with
    | nil => rfl
    | cons a t => exact List.dropWhile_cons_of_neg (by simp [h1 a rfl])
  rw [hd]
  have hr : l.reverse.dropWhile isPySpace = l.reverse := by
    cases hrev : l.reverse with
    | nil => rfl
    | cons a t =>
      have ha : l.getLast? = some a := by
        rw [← List.head?_reverse, hrev]
        rfl
      exact List.dropWhile_cons_of_neg (by simp [h2 a ha])
  rw [hr, List.reverse_reverse]

theorem matchMathAt_shape {d1 s1 s2 d2 rest : List Char} {op : Char}
    (hd1 : d1 ≠ []) (hd1d : d1.all Char.isDigit = true)
    (hs1 : s1.all isPySpace = true) (hop : isOpChar op = true)
    (hs2 : s2.all isPySpace = true) (hd2 : d2 ≠ []) (hd2d : d2.all Char.isDigit = true) :
    matchMathAt (d1 ++ s1 ++ op :: (s2 ++ d2 ++ rest))
      = some (natOfDigits d1, op, natOfDigits (d2 ++ rest.takeWhile Char.isDigit)) := by
  obtain ⟨a, t, rfl⟩ := List.exists_cons_of_ne_nil hd1
  obtain ⟨b, u, rfl⟩ := List.exists_cons_of_ne_nil hd2
  have hbd : b.isDigit = true := by
    simp only [List.all_cons, Bool.and_eq_true] at hd2d
    exact hd2d.1
  have hassoc : (a :: t) ++ s1 ++ op :: (s2 ++ (b :: u) ++ rest)
      = (a :: t) ++ (s1 ++ op :: (s2 ++ ((b :: u) ++ rest))) := by
    simp [List.append_assoc]
  have htail0 : (s1 ++ op :: (s2 ++ ((b :: u) ++ rest))).takeWhile Char.isDigit = [] := by
    cases s1 with
    | nil => exact List.takeWhile_cons_of_neg (by simp [op_not_digit hop])
    | cons w ws =>
      have hw : isPySpace w = true := by
        simp only [List.all_cons, Bool.and_eq_true] at hs1
        exact hs1.1
      exact List.takeWhile_cons_of_neg (by simp [space_not_digit hw])
  have hdrop0 : (s1 ++ op :: (s2 ++ ((b :: u) ++ rest))).dropWhile Char.isDigit
      = s1 ++ op :: (s2 ++ ((b :: u) ++ rest)) := by
    cases s1 with
    | nil => exact List.dropWhile_cons_of_neg (by simp [op_not_digit hop])
    | cons w ws =>
      have hw : isPySpace w = true := by
        simp only [List.all_cons, Bool.and_eq_true] at hs1
        exact hs1.1
      exact List.dropWhile_cons_of_neg (by simp [space_not_digit hw])
  have htake : ((a :: t) ++ (s1 ++ op :: (s2 ++ ((b :: u) ++ rest)))).takeWhile Char.isDigit
      = a :: t := by
    rw [takeWhile_append_of_all _ hd1d, htail0, List.append_nil]
  have hdropd : ((a :: t) ++ (s1 ++ op :: (s2 ++ ((b :: u) ++ rest)))).dropWhile Char.isDigit
      = s1 ++ op :: (s2 ++ ((b :: u) ++ rest)) := by
    rw [dropWhile_append_of_all _ hd1d, hdrop0]
  have hdropws : (s1 ++ op :: (s2 ++ ((b :: u) ++ rest))).dropWhile isPySpace
      = op :: (s2 ++ ((b :: u) ++ rest)) := by
    rw [dropWhile_append_of_all _ hs1]
    exact List.dropWhile_cons_of_neg (by simp [op_not_space hop])
  have hr4 : (s2 ++ ((b :: u) ++ rest)).dropWhile isPySpace = (b :: u) ++ rest := by
    rw [dropWhile_append_of_all _ hs2]
    exact List.dropWhile_cons_of_neg (by simp [digit_not_space hbd])
  have hd2t : ((b :: u) ++ rest).takeWhile Char.isDigit
      = (b :: u) ++ rest.takeWhile Char.isDigit :=
    takeWhile_append_of_all _ hd2d
  rw [hassoc]
  unfold matchMathAt
  dsimp only
  rw [htake, hdropd, hdropws]
  rw [if_neg (by simp : ¬ (a :: t).isEmpty = true)]
  try dsimp only
  rw [if_pos hop]
  try dsimp only
  rw [hr4, hd2t]
  rw [if_neg (by simp : ¬ ((b :: u) ++ rest.takeWhile Char.isDigit).isEmpty = true)]

theorem matchMathAt_op {l : List Char} {a b : Nat} {op : Char}
    (h : matchMathAt l = some (a, op, b)) : isOpChar op = true := by
  unfold matchMathAt at h
  by_cases he : (l.takeWhile Char.isDigit).isEmpty
  · rw [if_pos he] at h
    exact absurd h (by simp)
  · rw [if_neg he] at h
    cases hsp : (l.dropWhile Char.isDigit).dropWhile isPySpace with
    | nil =>
      rw [hsp] at h
      exact absurd h (by simp)
    | cons op' r3 =>
      rw [hsp] at h
      dsimp only at h
      by_cases hop : isOpChar op' = true
      · by_cases he2 : (((r3.dropWhile isPySpace).takeWhile Char.isDigit)).isEmpty
        · rw [if_pos hop, if_pos he2] at h
          exact absurd h (by simp)
        · rw [if_pos hop, if_neg he2] at h
          simp only [Option.some.injEq, Prod.mk.injEq] at h
          obtain ⟨h1, h2, h3⟩ := h
          exact h2 ▸ hop
      · rw [if_neg hop] at h
        exact absurd h (by simp)

theorem hasMathPattern_of_matchMathAt {l : List Char} {r : Nat × Char × Nat}
    (h : matchMathAt l = some r) : hasMathPattern l := by
  unfold matchMathAt at h
  by_cases he : (l.takeWhile Char.isDigit).isEmpty
  · rw [if_pos he] at h
    exact absurd h (by simp)
  · rw [if_neg he] at h
    cases hsp : (l.dropWhile Char.isDigit).dropWhile isPySpace with
    | nil =>
      rw [hsp] at h
      exact absurd h (by simp)
    | cons op r3 =>
      rw [hsp] at h
      dsimp only at h
      by_cases hop : isOpChar op = true
      · by_cases he2 : (((r3.dropWhile isPySpace).takeWhile Char.isDigit)).isEmpty
        · rw [if_pos hop, if_pos he2] at h
          exact absurd h (by simp)
        · refine ⟨[], l.takeWhile Char.isDigit, (l.dropWhile Char.isDigit).takeWhile isPySpace,
            op, r3.takeWhile isPySpace, (r3.dropWhile isPySpace).takeWhile Char.isDigit,
            (r3.dropWhile isPySpace).dropWhile Char.isDigit, ?_, ?_, ?_, ?_, hop, ?_, ?_, ?_⟩
          · have e1 : l = l.takeWhile Char.isDigit ++ l.dropWhile Char.isDigit :=
              (List.takeWhile_append_dropWhile ..).symm
            have e2 : l.dropWhile Char.isDigit
                = (l.dropWhile Char.isDigit).takeWhile isPySpace ++ (op :: r3) := by
              conv_lhs => rw [← List.takeWhile_append_dropWhile isPySpace
                (l.dropWhile Char.isDigit)]
              rw [hsp]
            have e3 : r3 = r3.takeWhile isPySpace ++ r3.dropWhile isPySpace :=
              (List.takeWhile_append_dropWhile ..).symm
            have e4 : r3.dropWhile isPySpace
                = (r3.dropWhile isPySpace).takeWhile Char.isDigit
                    ++ (r3.dropWhile isPySpace).dropWhile Char.isDigit :=
              (List.takeWhile_append_dropWhile ..).symm
            conv_lhs => rw [e1, e2]
            conv_lhs => rw [e3]
            conv_lhs => rw [e4]
            simp [List.append_assoc]
          · intro hnil
            exact he (by simp [hnil])
          · exact List.all_takeWhile ..
          · exact List.all_takeWhile ..
          · exact List.all_takeWhile ..
          · intro hnil
            exact he2 (by simp [hnil])
          · exact List.all_takeWhile ..
      · rw [if_neg hop] at h
        exact absurd h (by simp)

theorem hasMathPattern_cons {c : Char} {l : List Char} (h : hasMathPattern l) :
    hasMathPattern (c :: l) := by
  obtain ⟨pre, d1, s1, op, s2, d2, post, he, h1, h2, h3, h4, h5, h6, h7⟩ := h
  exact ⟨c :: pre, d1, s1, op, s2, d2, post, by rw [he]; simp, h1, h2, h3, h4, h5, h6, h7⟩

theorem hasMathPattern_of_searchMath {l : List Char} {r : Nat × Char × Nat}
    (h : searchMath l = some r) : hasMathPattern l := by
  induction l with
  | nil => exact absurd h (by simp [searchMath])
  | cons c cs ih =>
    cases hm : matchMathAt (c :: cs) with
    | some r' => exact hasMathPattern_of_matchMathAt hm
    | none =>
      rw [searchMath, hm] at h
      exact hasMathPattern_cons (ih h)

theorem searchMath_isSome_of_pattern {l : List Char} (h : hasMathPattern l) :
    ∃ r, searchMath l = some r := by
  induction l with
  | nil =>
    exfalso
    obtain ⟨pre, d1, s1, op, s2, d2, post, he, h1, _, _, _, _, _, _⟩ := h
    have hlen := congrArg List.length he
    simp [List.length_append] at hlen
    have hd1 : 0 < d1.length := List.length_pos.mpr h1
    omega
  | cons c cs ih =>
    cases hm : matchMathAt (c :: cs) with
    | some r => exact ⟨r, by rw [searchMath, hm]⟩
    | none =>
      obtain ⟨pre, d1, s1, op, s2, d2, post, he, h1, h2, h3, h4, h5, h6, h7⟩ := h
      cases pre with
      | cons p ps =>
        have hcs : cs = ps ++ d1 ++ s1 ++ op :: (s2 ++ d2 ++ post) := by
          have := he
          simp only [List.cons_append, List.append_assoc] at this ⊢
          injection this with _ h'
        obtain ⟨r, hr⟩ := ih ⟨ps, d1, s1, op, s2, d2, post, hcs, h1, h2, h3, h4, h5, h6, h7⟩
        exact ⟨r, by rw [searchMath, hm]; exact hr⟩
      | nil =>
        exfalso
        have hshape := @matchMathAt_shape d1 s1 s2 d2 post op h1 h2 h3 h4 h5 h6 h7
        have : c :: cs = d1 ++ s1 ++ op :: (s2 ++ d2 ++ post) := by simpa using he
        rw [← this] at hshape
        rw [hshape] at hm
        exact Option.noConfusion hm

theorem searchMath_op {l : List Char} {a b : Nat} {op : Char}
    (h : searchMath l = some (a, op, b)) : isOpChar op = true := by
  induction l with
  | nil => exact absurd h (by simp [searchMath])
  | cons c cs ih =>
    cases hm : matchMathAt (c :: cs) with
    | some r =>
      rw [searchMath, hm] at h
      obtain rfl : r = (a, op, b) := by injection h
      exact matchMathAt_op hm
    | none =>
      rw [searchMath, hm] at h
      exact ih h

theorem cleanCaptcha_digits_op {d1 d2 : List Char} {op : Char}
    (hd1 : d1 ≠ []) (hd1d : d1.all Char.isDigit = true) (hop : isOpChar op = true)
    (hd2 : d2 ≠ []) (hd2d : d2.all Char.isDigit = true) :
    cleanCaptcha (d1 ++ ' ' :: op :: ' ' :: d2) = d1 ++ ' ' :: op :: ' ' :: d2 := by
  have hmem : ∀ c ∈ d1 ++ ' ' :: op :: ' ' :: d2,
      c ∈ d1 ∨ c = ' ' ∨ c = op ∨ c ∈ d2 := by
    intro c hc
    simp only [List.mem_append, List.mem_cons] at hc
    tauto
  have hmap : (d1 ++ ' ' :: op :: ' ' :: d2).map captchaMapChar
      = d1 ++ ' ' :: op :: ' ' :: d2 := by
    rw [List.map_congr_left, List.map_id]
    intro c hc
    rcases hmem c hc with h | h | h | h
    · exact captchaMapChar_digit (List.all_eq_true.mp hd1d c h)
    · subst h; rfl
    · subst h; exact captchaMapChar_op hop
    · exact captchaMapChar_digit (List.all_eq_true.mp hd2d c h)
  have hfil : (d1 ++ ' ' :: op :: ' ' :: d2).filter (fun c => !(c = '?' || c = '='))
      = d1 ++ ' ' :: op :: ' ' :: d2 := by
    rw [List.filter_eq_self.mpr]
    intro c hc
    rcases hmem c hc with h | h | h | h
    · exact digit_not_stripped (List.all_eq_true.mp hd1d c h)
    · subst h; rfl
    · subst h; exact op_not_stripped hop
    · exact digit_not_stripped (List.all_eq_true.mp hd2d c h)
  have hstrip : stripChars (d1 ++ ' ' :: op :: ' ' :: d2)
      = d1 ++ ' ' :: op :: ' ' :: d2 := by
    obtain ⟨a, t, rfl⟩ := List.exists_cons_of_ne_nil hd1
    have had : a.isDigit = true := by
      simp only [List.all_cons, Bool.and_eq_true] at hd1d
      exact hd1d.1
    refine stripChars_eq_self ?_ ?_
    · intro c hc
      simp only [List.cons_append, List.head?_cons, Option.some.injEq] at hc
      subst hc
      exact digit_not_space had
    · intro c hc
      have hsplit : (a :: t) ++ ' ' :: op :: ' ' :: d2 = ((a :: t) ++ [' ', op, ' ']) ++ d2 := by
        simp
      rw [hsplit, List.getLast?_append] at hc
      cases hd2l : d2.getLast? with
      | none =>
        obtain ⟨b, u, rfl⟩ := List.exists_cons_of_ne_nil hd2
        simp at hd2l
      | some x =>
        rw [hd2l] at hc
        have hx : x = c := by
          simpa using hc
        subst hx
        exact digit_not_space (List.all_eq_true.mp hd2d x (List.mem_of_mem_getLast? hd2l))
  unfold cleanCaptcha
  rw [hmap, hfil, hstrip]

/-- C6: the captcha math parser normalizes OCR artifacts (uppercase `X`, `×`
and `*` mean multiply, `÷` means divide, em/en dashes mean minus, `?` and `=`
are stripped), succeeds exactly when the cleaned text contains
`<digits> <op> <digits>` with `op ∈ {+, -, x, *, /}` anywhere, computes
addition, subtraction, multiplication, and floor division with division by
zero yielding 0, and fails with CaptchaError otherwise.  "3 + 5 = ?" gives 8,
"8 – 3 = ?" (en dash) gives 5, "6 x 3 = ?" gives 18. -/
theorem parse_math_expression_spec :
    (∀ text : String,
      (∃ v, _parse_math_expression text = Except.ok v)
        ↔ hasMathPattern (cleanCaptcha text.data)) ∧
    (∀ d1 d2 : List Char, ∀ op : Char,
      d1 ≠ [] → d1.all Char.isDigit = true → isOpChar op = true →
      d2 ≠ [] → d2.all Char.isDigit = true →
      _parse_math_expression ⟨d1 ++ ' ' :: op :: ' ' :: d2⟩
        = Except.ok (specMathValue (natOfDigits d1) op (natOfDigits d2))) ∧
    _parse_math_expression "3 + 5 = ?" = Except.ok 8 ∧
    _parse_math_expression "8 – 3 = ?" = Except.ok 5 ∧
    _parse_math_expression "6 x 3 = ?" = Except.ok 18 ∧
    _parse_math_expression "5 / 0" = Except.ok 0 ∧
    _parse_math_expression "hello"
      = Except.error "Could not parse math from OCR text: hello" := by
  refine ⟨?_, ?_, rfl, rfl, rfl, rfl, rfl⟩
  · intro text
    constructor
    · rintro ⟨v, hv⟩
      unfold _parse_math_expression at hv
      cases hs : searchMath (cleanCaptcha text.data) with
      | none =>
        rw [hs] at hv
        exact absurd hv (by simp)
      | some r =>
        exact hasMathPattern_of_searchMath hs
    · intro hp
      obtain ⟨⟨a, op, b⟩, hr⟩ := searchMath_isSome_of_pattern hp
      have hop := searchMath_op hr
      unfold _parse_math_expression
      rw [hr]
      rcases isOpChar_cases hop with h | h | h | h | h <;> subst h
      · exact ⟨_, rfl⟩
      · exact ⟨_, rfl⟩
      · exact ⟨_, rfl⟩
      · exact ⟨_, rfl⟩
      · exact ⟨_, rfl⟩
  · intro d1 d2 op hd1 hd1d hop hd2 hd2d
    unfold _parse_math_expression
    rw [show (⟨d1 ++ ' ' :: op :: ' ' :: d2⟩ : String).data = d1 ++ ' ' :: op :: ' ' :: d2
        from rfl]
    rw [cleanCaptcha_digits_op hd1 hd1d hop hd2 hd2d]
    have hmatch := @matchMathAt_shape d1 [' '] [' '] d2 [] op
      hd1 hd1d (by rfl) hop (by rfl) hd2 hd2d
    simp only [List.takeWhile_nil, List.append_nil] at hmatch
    have hsearch : searchMath (d1 ++ ' ' :: op :: ' ' :: d2)
        = some (natOfDigits d1, op, natOfDigits d2) := by
      obtain ⟨a, t, rfl⟩ := List.exists_cons_of_ne_nil hd1
      simp only [List.cons_append, List.append_assoc, List.singleton_append,
        List.nil_append] at hmatch ⊢
      rw [searchMath, hmatch]
    rw [hsearch]
    rcases isOpChar_cases hop with h | h | h | h | h <;> subst h
    · rfl
    · rfl
    · rfl
    · rfl
    · by_cases hb : natOfDigits d2 = 0 <;> simp [specMathValue, hb]

/-- C6 witness: the general value theorem applied to "7 + 2". -/
theorem parse_math_expression_spec_witness :
    (['7'] ≠ ([] : List Char) ∧ isOpChar '+' = true ∧ ['2'] ≠ ([] : List Char)) ∧
    _parse_math_expression ⟨['7'] ++ ' ' :: '+' :: ' ' :: ['2']⟩ = Except.ok 9 := by
  refine ⟨⟨by decide, by decide, by decide⟩, ?_⟩
  have h := parse_math_expression_spec.2.1 ['7'] ['2'] '+'
    (by decide) (by decide) (by decide) (by decide) (by decide)
  simpa using h

/-! ## Support lemmas for C7 -/

theorem pyLower_data (s : String) : (pyLower s).data = s.data.map Char.toLower := rfl

theorem lower_parties_prefix_searchable (order : SCOrderRecord) (ft : Option String) :
    (pyLower order.parties).data <+: (searchableOf order ft).data := by
  have key : ∀ s : String, order.parties.data <+: s.data →
      (pyLower order.parties).data <+: (pyLower s).data := by
    intro s hs
    rw [pyLower_data, pyLower_data]
    exact hs.map Char.toLower
  have base2 : order.parties.data <+: (order.parties ++ " " ++ order.case_number).data := by
    rw [show (order.parties ++ " " ++ order.case_number).data
        = order.parties.data ++ (" ".data ++ order.case_number.data) from by
      simp [List.append_assoc]]
    exact List.prefix_append _ _
  unfold searchableOf
  cases ft with
  | none => exact key _ base2
  | some t =>
    dsimp only
    by_cases ht : t = ""
    · rw [if_pos ht]
      exact key _ base2
    · rw [if_neg ht]
      refine key _ ?_
      rw [show (order.parties ++ " " ++ order.case_number ++ " " ++ t).data
          = order.parties.data ++ (" ".data ++ order.case_number.data ++ " ".data ++ t.data)
          from by simp [List.append_assoc]]
      exact List.prefix_append _ _

/-- C7: for an entity watch with non-empty (stripped) query terms, the match
result is no-match with score 0 when the lowercased phrase is absent from the
search corpus; a match with score 0.9 when the phrase occurs in the parties
string; and a match with score 0.5 when it occurs in the corpus (e.g. only in
the supplied full PDF text) but not in the parties string — in both match
cases `matched_terms` is the single query phrase. -/
theorem entity_match_scoring (order : SCOrderRecord) (w : Watch) (full_text : Option String)
    (hty : w.watch_type = "entity") (hq : pyStrip w.query_terms ≠ "") :
    (¬ (pyLower (pyStrip w.query_terms)).data <:+: (searchableOf order full_text).data →
      match_order_against_watch order w full_text
        = { is_match := false, relevance_score := 0 }) ∧
    ((pyLower (pyStrip w.query_terms)).data <:+: (pyLower order.parties).data →
      (match_order_against_watch order w full_text).is_match = true ∧
      (match_order_against_watch order w full_text).relevance_score = 9/10 ∧
      (match_order_against_watch order w full_text).matched_terms = [pyStrip w.query_terms]) ∧
    ((pyLower (pyStrip w.query_terms)).data <:+: (searchableOf order full_text).data →
      ¬ (pyLower (pyStrip w.query_terms)).data <:+: (pyLower order.parties).data →
      (match_order_against_watch order w full_text).is_match = true ∧
      (match_order_against_watch order w full_text).relevance_score = 1/2 ∧
      (match_order_against_watch order w full_text).matched_terms = [pyStrip w.query_terms]) := by
  have hre : match_order_against_watch order w full_text
      = _match_entity (pyStrip w.query_terms) (searchableOf order full_text) order := by
    unfold match_order_against_watch
    rw [if_neg hq, hty]
    rw [if_pos rfl]
  refine ⟨?_, ?_, ?_⟩
  · intro habs
    rw [hre]
    unfold _match_entity
    dsimp only
    rw [show strContains (searchableOf order full_text) (pyLower (pyStrip w.query_terms))
        = false from by simp [strContains, habs]]
    rfl
  · intro hpar
    have hin : (pyLower (pyStrip w.query_terms)).data <:+: (searchableOf order full_text).data :=
      hpar.trans (lower_parties_prefix_searchable order full_text).isInfix
    rw [hre]
    unfold _match_entity
    dsimp only
    rw [show strContains (searchableOf order full_text) (pyLower (pyStrip w.query_terms))
        = true from by simp [strContains, hin]]
    rw [show strContains (pyLower order.parties) (pyLower (pyStrip w.query_terms))
        = true from by simp [strContains, hpar]]
    exact ⟨rfl, rfl, rfl⟩
  · intro hin hnpar
    rw [hre]
    unfold _match_entity
    dsimp only
    rw [show strContains (searchableOf order full_text) (pyLower (pyStrip w.query_terms))
        = true from by simp [strContains, hin]]
    rw [show strContains (pyLower order.parties) (pyLower (pyStrip w.query_terms))
        = false from by simp [strContains, hnpar]]
    exact ⟨rfl, rfl, rfl⟩

/-- C7 witness: "Amazon Web Services" scores 0.9 against an order whose
parties string names it. -/
theorem entity_match_scoring_witness :
    ((pyLower (pyStrip "Amazon Web Services")).data <:+:
      (pyLower "Amazon Web Services Inc. vs Union of India").data) ∧
    (match_order_against_watch
      { case_number := "SLP(C) 1/2026", diary_number := "1",
        parties := "Amazon Web Services Inc. vs Union of India", pdf_url := "u" }
      { id := "w2", watch_type := "entity", query_terms := "Amazon Web Services" }
      none).relevance_score = 9/10 := by
  refine ⟨by decide, ?_⟩
  exact ((entity_match_scoring
    { case_number := "SLP(C) 1/2026", diary_number := "1",
      parties := "Amazon Web Services Inc. vs Union of India", pdf_url := "u" }
    { id := "w2", watch_type := "entity", query_terms := "Amazon Web Services" }
    none rfl (by decide)).2.1 (by decide)).2.1

/-- C8 (spec-modelled): in the SC-scraper dedup path, the persisted judgment's
`full_text` is the first 100,000 characters of the supplied text and the
created watch-match's `snippet` is the match snippet truncated to 500
characters, whatever the input lengths; the singleton run of
`process_sc_orders` persists exactly these rows. -/
theorem sc_truncation (order : SCOrderRecord) (mr : MatchResult) (full_text : String)
    (watch_id judgment_id : String) :
    (sc_judgment_row order full_text).full_text = strTake full_text 100000 ∧
    (sc_judgment_row order full_text).full_text.length ≤ 100000 ∧
    (full_text.length ≤ 100000 → (sc_judgment_row order full_text).full_text = full_text) ∧
    (sc_watch_match_row watch_id judgment_id mr).snippet = strTake mr.snippet 500 ∧
    (sc_watch_match_row watch_id judgment_id mr).snippet.length ≤ 500 ∧
    (∀ (upsert : SCJudgmentRow → Option String)
        (insertMatch : WatchMatchRow → Option WatchMatchRow),
      upsert (sc_judgment_row order full_text) = some judgment_id →
      insertMatch (sc_watch_match_row watch_id judgment_id mr)
        = some (sc_watch_match_row watch_id judgment_id mr) →
      process_sc_orders upsert insertMatch watch_id [(order, mr, full_text)]
        = [sc_watch_match_row watch_id judgment_id mr]) := by
  refine ⟨rfl, ?_, ?_, rfl, ?_, ?_⟩
  · show (full_text.data.take 100000).length ≤ 100000
    rw [List.length_take]
    omega
  · intro h
    show strTake full_text 100000 = full_text
    unfold strTake
    rw [List.take_of_length_le h]
  · show (mr.snippet.data.take 500).length ≤ 500
    rw [List.length_take]
    omega
  · intro upsert insertMatch hu hi
    unfold process_sc_orders
    rw [hu]
    dsimp only
    rw [hi]
    rfl

/-- C8 witness: a short text passes through untruncated and the single-tuple
run records exactly the one match row. -/
theorem sc_truncation_witness :
    (("abc" : String).length ≤ 100000) ∧
    (sc_judgment_row
      { case_number := "c1", diary_number := "d1", parties := "P vs Q", pdf_url := "u" }
      "abc").full_text = "abc" := by
  refine ⟨by decide, ?_⟩
  exact (sc_truncation
    { case_number := "c1", diary_number := "d1", parties := "P vs Q", pdf_url := "u" }
    { is_match := true, relevance_score := 9/10 } "abc" "w1" "j1").2.2.1 (by decide)

/-! ## Support lemmas for C9 -/

theorem emailEntryLines_length (ms : List MatchRecord) :
    ∀ i, (emailEntryLines i ms).length = 4 * ms.length := by
  induction ms with
  | nil => intro i; rfl
  | cons a rest ih =>
    intro i
    simp only [emailEntryLines, List.length_cons, ih (i + 1), List.length_cons]
    ring

theorem emailEntryLines_getElem (ms : List MatchRecord) :
    ∀ k i m, ms[k]? = some m →
      (emailEntryLines i ms)[4 * k]?
        = some ("  " ++ toString (i + k) ++ ". " ++ m.judgments.title.getD "Unknown") ∧
      (emailEntryLines i ms)[4 * k + 1]?
        = some ("     Court: " ++ m.judgments.court.getD "Unknown") ∧
      (emailEntryLines i ms)[4 * k + 2]?
        = some ("     Link:  " ++ m.judgments.ik_url.getD "") := by
  induction ms with
  | nil =>
    intro k i m h
    simp at h
  | cons a rest ih =>
    intro k i m h
    cases k with
    | zero =>
      have ha : a = m := by simpa using h
      subst ha
      exact ⟨rfl, rfl, rfl⟩
    | succ k' =>
      have h' : rest[k']? = some m := by simpa using h
      have hrec := ih k' (i + 1) m h'
      have hunfold : emailEntryLines i (a :: rest)
          = ("  " ++ toString i ++ ". " ++ a.judgments.title.getD "Unknown") ::
            ("     Court: " ++ a.judgments.court.getD "Unknown") ::
            ("     Link:  " ++ a.judgments.ik_url.getD "") ::
            "" :: emailEntryLines (i + 1) rest := by
        rw [emailEntryLines]
      have e1 : i + 1 + k' = i + (k' + 1) := by ring
      refine ⟨?_, ?_, ?_⟩
      · rw [hunfold, show 4 * (k' + 1) = 4 * k' + 1 + 1 + 1 + 1 from by ring]
        simp only [List.getElem?_cons_succ]
        rw [hrec.1, e1]
      · rw [hunfold, show 4 * (k' + 1) + 1 = 4 * k' + 1 + 1 + 1 + 1 + 1 from by ring]
        simp only [List.getElem?_cons_succ]
        exact hrec.2.1
      · rw [hunfold, show 4 * (k' + 1) + 2 = 4 * k' + 2 + 1 + 1 + 1 + 1 from by ring]
        simp only [List.getElem?_cons_succ]
        exact hrec.2.2

set_option maxRecDepth 10000 in
/-- C9 counterexample: a match whose judgment has no search-API URL but does
have a scraper URL is rendered with an empty link — the scraper URL never
appears in the body, so there is no fallback. -/
theorem email_link_no_fallback_counterexample :
    matchScraperOnly.judgments.ik_url = none ∧
    matchScraperOnly.judgments.external_url = some "https://sci.gov.in/pdf/o.pdf" ∧
    strContains (send_email_alert_body "Acme Watch" [matchScraperOnly]) "sci.gov.in" = false ∧
    strContains (send_email_alert_body "Acme Watch" [matchScraperOnly]) "Link:  \n" = true :=
  ⟨rfl, rfl, by decide, by decide⟩

/-- C9 (amended): the email subject is exactly
`"[Vigil] {watch_name}: {count} new judgment(s)"`, and for each match the
body lists the judgment's title, court, and a link that is the search-API URL
(`ik_url`), rendered empty when absent — there is no fallback to the
scraper's external URL. -/
theorem email_alert_composition :
    (∀ wn ms, email_subject wn ms
      = "[Vigil] " ++ wn ++ ": " ++ toString ms.length ++ " new judgment(s)") ∧
    (∀ wn ms, send_email_alert_body wn ms
      = String.intercalate "\n" (emailBodyLines wn ms)) ∧
    (∀ (wn : String) (ms : List MatchRecord) (k : Nat) (m : MatchRecord), ms[k]? = some m →
      (emailBodyLines wn ms)[6 + 4 * k]?
        = some ("  " ++ toString (k + 1) ++ ". " ++ m.judgments.title.getD "Unknown") ∧
      (emailBodyLines wn ms)[7 + 4 * k]?
        = some ("     Court: " ++ m.judgments.court.getD "Unknown") ∧
      (emailBodyLines wn ms)[8 + 4 * k]?
        = some ("     Link:  " ++ m.judgments.ik_url.getD "")) := by
  refine ⟨fun wn ms => rfl, fun wn ms => rfl, ?_⟩
  intro wn ms k m h
  have hk : k < ms.length := (List.getElem?_eq_some.mp h).1
  have hlen : (emailEntryLines 1 ms).length = 4 * ms.length := emailEntryLines_length ms 1
  have hentry := emailEntryLines_getElem ms k 1 m h
  have hsplit : emailBodyLines wn ms
      = ["Vigil — Judgment Alert", "Watch: " ++ wn,
          toString ms.length ++ " new judgment(s) matched", "", eqLine, ""]
        ++ (emailEntryLines 1 ms ++ [eqLine, "", "Vigil · Trilegal Internal Tool"]) := by
    unfold emailBodyLines
    rw [List.append_assoc]
  have hlen6 : (["Vigil — Judgment Alert", "Watch: " ++ wn,
      toString ms.length ++ " new judgment(s) matched", "", eqLine, ""] : List String).length
      = 6 := rfl
  refine ⟨?_, ?_, ?_⟩
  · rw [hsplit, List.getElem?_append_right (by rw [hlen6]; omega), hlen6]
    rw [show 6 + 4 * k - 6 = 4 * k from by omega]
    rw [List.getElem?_append_left (by rw [hlen]; omega)]
    rw [hentry.1, Nat.add_comm 1 k]
  · rw [hsplit, List.getElem?_append_right (by rw [hlen6]; omega), hlen6]
    rw [show 7 + 4 * k - 6 = 4 * k + 1 from by omega]
    rw [List.getElem?_append_left (by rw [hlen]; omega)]
    exact hentry.2.1
  · rw [hsplit, List.getElem?_append_right (by rw [hlen6]; omega), hlen6]
    rw [show 8 + 4 * k - 6 = 4 * k + 2 from by omega]
    rw [List.getElem?_append_left (by rw [hlen]; omega)]
    exact hentry.2.2

/-- C9 witness: the composition theorem applied to a one-match list with a
search-API URL present. -/
theorem email_alert_composition_witness :
    (([matchWithIkUrl] : List MatchRecord)[0]? = some matchWithIkUrl) ∧
    (emailBodyLines "W" [matchWithIkUrl])[8]?
      = some ("     Link:  " ++ "https://indiankanoon.org/doc/1/") := by
  refine ⟨rfl, ?_⟩
  exact (email_alert_composition.2.2 "W" [matchWithIkUrl] 0 matchWithIkUrl rfl).2.2

/-- C10: when no notification channel is both enabled and configured, a
dispatch cycle makes zero delivery attempts and increments `retry_count` on
every fetched un-notified match; three such cycles bring every initially
fresh pending match to `retry_count = 3`, after which dispatch never changes
the rows again (nor attempts any delivery) — the matches are permanently
excluded without any delivery ever attempted. -/
theorem dispatch_no_channels (s : NotifSettings) (emailOk slackOk : String → Bool)
    (rows : List MatchRow)
    (hch : emailAttempted s = false ∧ slackAttempted s = false)
    (hrows : ∀ m ∈ rows, m.is_notified = false ∧ m.retry_count = 0) :
    (dispatch_pending_notifications s emailOk slackOk rows).2 = 0 ∧
    dispatchStep s emailOk slackOk rows
      = rows.map (fun m => { m with retry_count := m.retry_count + 1 }) ∧
    dispatchStep s emailOk slackOk (dispatchStep s emailOk slackOk
        (dispatchStep s emailOk slackOk rows))
      = rows.map (fun m => { m with retry_count := 3 }) ∧
    (∀ m ∈ dispatchStep s emailOk slackOk (dispatchStep s emailOk slackOk
        (dispatchStep s emailOk slackOk rows)),
      m.is_notified = false ∧ m.retry_count = 3) ∧
    dispatchStep s emailOk slackOk (dispatchStep s emailOk slackOk
        (dispatchStep s emailOk slackOk (dispatchStep s emailOk slackOk rows)))
      = dispatchStep s emailOk slackOk (dispatchStep s emailOk slackOk
          (dispatchStep s emailOk slackOk rows)) ∧
    (dispatch_pending_notifications s emailOk slackOk (dispatchStep s emailOk slackOk
        (dispatchStep s emailOk slackOk (dispatchStep s emailOk slackOk rows)))).2 = 0 := by
  have hgs : ∀ wid, groupSuccess s emailOk slackOk wid = false := by
    intro wid
    simp [groupSuccess, hch.1, hch.2]
  have hatt : ∀ rs : List MatchRow, (dispatch_pending_notifications s emailOk slackOk rs).2 = 0 := by
    intro rs
    unfold dispatch_pending_notifications
    dsimp only
    rw [hch.1, hch.2]
    simp
  have hstep : ∀ rs : List MatchRow, dispatchStep s emailOk slackOk rs
      = rs.map (fun m =>
          if !m.is_notified && decide (m.retry_count < 3) then
            { m with retry_count := m.retry_count + 1 }
          else m) := by
    intro rs
    unfold dispatchStep dispatch_pending_notifications
    dsimp only
    rw [List.map_congr_left]
    intro m _
    by_cases hc : (!m.is_notified && decide (m.retry_count < 3)) = true
    · rw [if_pos hc, if_pos hc, if_neg]
      rw [hgs m.watch_id]
      simp
    · rw [if_neg hc, if_neg hc]
  have hstep3 : dispatchStep s emailOk slackOk (dispatchStep s emailOk slackOk
      (dispatchStep s emailOk slackOk rows)) = rows.map (fun m => { m with retry_count := 3 }) := by
    rw [hstep, hstep, hstep, List.map_map, List.map_map]
    rw [List.map_congr_left]
    intro m hm
    obtain ⟨h1, h2⟩ := hrows m hm
    obtain ⟨mi, mw, mr, mn⟩ := m
    simp only at h1 h2
    subst h1
    subst h2
    rfl
  refine ⟨hatt rows, ?_, hstep3, ?_, ?_, hatt _⟩
  · rw [hstep, List.map_congr_left]
    intro m hm
    obtain ⟨h1, h2⟩ := hrows m hm
    obtain ⟨mi, mw, mr, mn⟩ := m
    simp only at h1 h2
    subst h1
    subst h2
    rfl
  · intro m hm
    rw [hstep3] at hm
    obtain ⟨m0, hm0, rfl⟩ := List.mem_map.mp hm
    exact ⟨(hrows m0 hm0).1, rfl⟩
  · rw [hstep3, hstep, List.map_map]
    rw [List.map_congr_left]
    intro m hm
    obtain ⟨mi, mw, mr, mn⟩ := m
    simp [Function.comp]

/-- C10 witness: email enabled with an empty recipient list and the webhook
disabled — three cycles leave two fresh matches at `retry_count = 3`, never
notified, with no delivery attempts. -/
theorem dispatch_no_channels_witness :
    (emailAttempted settingsNoChannel = false ∧ slackAttempted settingsNoChannel = false) ∧
    dispatchStep settingsNoChannel (fun _ => true) (fun _ => true)
      (dispatchStep settingsNoChannel (fun _ => true) (fun _ => true)
        (dispatchStep settingsNoChannel (fun _ => true) (fun _ => true)
          [freshRow1, freshRow2]))
      = [{ id := "m1", watch_id := "w1", retry_count := 3 },
         { id := "m2", watch_id := "w2", retry_count := 3 }] := by
  refine ⟨⟨by decide, by decide⟩, ?_⟩
  exact (dispatch_no_channels settingsNoChannel (fun _ => true) (fun _ => true)
    [freshRow1, freshRow2] ⟨by decide, by decide⟩ (by
      intro m hm
      simp only [List.mem_cons, List.mem_singleton] at hm
      rcases hm with rfl | rfl | h
      · exact ⟨rfl, rfl⟩
      · exact ⟨rfl, rfl⟩
      · simp at h)).2.2.1

end Vigil
